import Mathlib

/-!
Verification of the AST node model, the generic traversal/rewrite engine
(`nodesTraverseFuncs.c`) and the AST factory layer (`astCreateFuncs.c`) of the
query-processing front end.  The C code is shallowly embedded: tagged structs
become an inductive type, `SNode*` becomes `Option Node`, `SNodeList*` becomes
`Option (List (Option Node))`, and the mutable visitor context (`void*`) becomes
an explicit state parameter threaded through every callback.
-/

/-- Outcome values returned by visitors and rewriters (`EDealRes` in
`querynodes.h`; the traversal code uses exactly the three values below). -/
inductive EDealRes where
  | CONTINUE
  | ERROR
  | END
deriving DecidableEq, Repr

/-- Traversal orders, from `nodesTraverseFuncs.c` lines 18-22. -/
inductive ETraversalOrder where
  | TRAVERSAL_PREORDER
  | TRAVERSAL_INORDER
  | TRAVERSAL_POSTORDER
deriving DecidableEq, Repr

/-- Comparison operator kinds used by the BETWEEN desugaring
(`EOperatorType`; only the members referenced by `astCreateFuncs.c`). -/
inductive EOperatorType where
  | OP_TYPE_GREATER_EQUAL
  | OP_TYPE_LOWER_EQUAL
  | OP_TYPE_LOWER_THAN
  | OP_TYPE_GREATER_THAN
deriving DecidableEq, Repr

/-- Logic-condition kinds (`ELogicConditionType`). -/
inductive ELogicConditionType where
  | LOGIC_COND_TYPE_AND
  | LOGIC_COND_TYPE_OR
  | LOGIC_COND_TYPE_NOT
deriving DecidableEq, Repr

/-- The AST node: one constructor per `QUERY_NODE_*` kind handled by the core.
Child pointers (`SNode*`) are `Option Node`; child lists (`SNodeList*`) are
`Option (List (Option Node))` (a null list pointer vs. an owned list of
possibly-null element pointers).  Scalar fields that no verified operation
reads are kept as plain data (`Nat`/`String`). -/
inductive Node where
  | column (tableName colName : String)
  | value
  | limit
  | operator (opType : EOperatorType) (pLeft pRight : Option Node)
  | logicCondition (condType : ELogicConditionType)
      (pParameterList : Option (List (Option Node)))
  | function (functionName : String) (pParameterList : Option (List (Option Node)))
  | realTable (dbName tableName : String)
  | tempTable (pSubquery : Option Node)
  | joinTable (joinType : Nat) (pLeft pRight pOnCond : Option Node)
  | groupingSet (pParameterList : Option (List (Option Node)))
  | orderByExpr (pExpr : Option Node) (order nullOrder : Nat)
  | stateWindow (pExpr pCol : Option Node)
  | sessionWindow (pCol pGap : Option Node)
  | intervalWindow (pInterval pOffset pSliding pFill pCol : Option Node)
  | nodeListHolder (pNodeList : Option (List (Option Node)))
  | fill (mode : Nat) (pValues : Option Node)
  | rawExpr (pNode : Option Node)
  | target (pExpr : Option Node)
  | selectStmt (isDistinct isStar : Bool)
      (pProjectionList : Option (List (Option Node)))
      (pFromTable pWhere : Option Node)
      (pPartitionByList : Option (List (Option Node)))
      (pWindow : Option Node)
      (pGroupByList : Option (List (Option Node)))
      (pHaving : Option Node)
      (pOrderByList : Option (List (Option Node)))
      (pSlimit pLimit : Option Node)
  | setOperator (opType : Nat) (pLeft pRight : Option Node)
  | showStmt (showType : Nat)
  | isNullCond (pExpr : Option Node) (isNull : Bool)
deriving Repr

/-- An `SNodeList`: the cell chain of an owned node list.  Elements are the
stored `SNode*` pointers, hence `Option Node`. -/
abbrev SNodeList := List (Option Node)

/-- The C idiom `res = first; if (DEAL_RES_ERROR != res && DEAL_RES_END != res)
{ res = next; }` used between consecutive child visits throughout
`nodesTraverseFuncs.c`: run `next` from the intermediate state unless the first
step already short-circuited. -/
def dealSeq {σ : Type} (first : EDealRes × σ) (next : σ → EDealRes × σ) :
    EDealRes × σ :=
  if first.1 ≠ .ERROR ∧ first.1 ≠ .END then next first.2 else first

mutual

/-- `walkNode` (`nodesTraverseFuncs.c` lines 26-134): generic recursive walk of
one node slot.  The caller-supplied context (`void* pContext`, mutated by the
visitor) is modelled as a state value of type `σ` threaded through the walk. -/
def walkNode {σ : Type} (pNode : Option Node) (order : ETraversalOrder)
    (walker : Node → σ → EDealRes × σ) (s : σ) : EDealRes × σ :=
  match pNode with
  | none => (.CONTINUE, s)
  | some n =>
    let pre := if order = .TRAVERSAL_PREORDER then walker n s else (.CONTINUE, s)
    if pre.1 ≠ .CONTINUE then pre
    else
      let mid := walkChildren n order walker pre.2
      if mid.1 ≠ .ERROR ∧ mid.1 ≠ .END ∧ order = .TRAVERSAL_POSTORDER then
        walker n mid.2
      else mid

/-- The child-dispatch `switch (nodeType(pNode))` of `walkNode`
(`nodesTraverseFuncs.c` lines 40-127), case by case.  `REAL_TABLE` and
`TEMP_TABLE` are bare `break; // todo` in the source, and kinds without a case
fall to `default: break`. -/
def walkChildren {σ : Type} (n : Node) (order : ETraversalOrder)
    (walker : Node → σ → EDealRes × σ) (s : σ) : EDealRes × σ :=
  match n with
  | .column _ _ => (.CONTINUE, s)
  | .value => (.CONTINUE, s)
  | .limit => (.CONTINUE, s)
  | .operator _ pLeft pRight =>
    dealSeq (walkNode pLeft order walker s)
      (fun s1 => walkNode pRight order walker s1)
  | .logicCondition _ pParameterList =>
    walkList pParameterList order walker s
  | .function _ pParameterList =>
    walkList pParameterList order walker s
  | .realTable _ _ => (.CONTINUE, s)
  | .tempTable _ => (.CONTINUE, s)
  | .joinTable _ pLeft pRight pOnCond =>
    dealSeq (walkNode pLeft order walker s)
      (fun s1 => dealSeq (walkNode pRight order walker s1)
        (fun s2 => walkNode pOnCond order walker s2))
  | .groupingSet pParameterList =>
    walkList pParameterList order walker s
  | .orderByExpr pExpr _ _ =>
    walkNode pExpr order walker s
  | .stateWindow pExpr pCol =>
    dealSeq (walkNode pExpr order walker s)
      (fun s1 => walkNode pCol order walker s1)
  | .sessionWindow pCol pGap =>
    dealSeq (walkNode pCol order walker s)
      (fun s1 => walkNode pGap order walker s1)
  | .intervalWindow pInterval pOffset pSliding pFill pCol =>
    dealSeq (walkNode pInterval order walker s)
      (fun s1 => dealSeq (walkNode pOffset order walker s1)
        (fun s2 => dealSeq (walkNode pSliding order walker s2)
          (fun s3 => dealSeq (walkNode pFill order walker s3)
            (fun s4 => walkNode pCol order walker s4))))
  | .nodeListHolder pNodeList =>
    walkList pNodeList order walker s
  | .fill _ pValues =>
    walkNode pValues order walker s
  | .rawExpr pInner =>
    walkNode pInner order walker s
  | .target pExpr =>
    walkNode pExpr order walker s
  | _ => (.CONTINUE, s)

/-- `walkList` (`nodesTraverseFuncs.c` lines 136-145).  The `FOREACH` macro
iterates a possibly-null list pointer, doing nothing on null. -/
def walkList {σ : Type} (pNodeList : Option SNodeList) (order : ETraversalOrder)
    (walker : Node → σ → EDealRes × σ) (s : σ) : EDealRes × σ :=
  match pNodeList with
  | none => (.CONTINUE, s)
  | some l => walkCells l order walker s

/-- The loop body of `walkList`: walk each stored element, returning the first
`ERROR`/`END` outcome, else `CONTINUE`. -/
def walkCells {σ : Type} (l : List (Option Node)) (order : ETraversalOrder)
    (walker : Node → σ → EDealRes × σ) (s : σ) : EDealRes × σ :=
  match l with
  | [] => (.CONTINUE, s)
  | x :: xs =>
    dealSeq (walkNode x order walker s)
      (fun s1 => walkCells xs order walker s1)

end

/-- `nodesWalkExpr` (lines 147-149): pre-order walk, result discarded (`(void)`),
only the context survives. -/
def nodesWalkExpr {σ : Type} (pNode : Option Node)
    (walker : Node → σ → EDealRes × σ) (s : σ) : σ :=
  (walkNode pNode .TRAVERSAL_PREORDER walker s).2

/-- `nodesWalkExprs` (lines 151-153). -/
def nodesWalkExprs {σ : Type} (pNodeList : Option SNodeList)
    (walker : Node → σ → EDealRes × σ) (s : σ) : σ :=
  (walkList pNodeList .TRAVERSAL_PREORDER walker s).2

/-- `nodesWalkExprPostOrder` (lines 155-157). -/
def nodesWalkExprPostOrder {σ : Type} (pNode : Option Node)
    (walker : Node → σ → EDealRes × σ) (s : σ) : σ :=
  (walkNode pNode .TRAVERSAL_POSTORDER walker s).2

/-- `nodesWalkExprsPostOrder` (lines 159-161). -/
def nodesWalkExprsPostOrder {σ : Type} (pNodeList : Option SNodeList)
    (walker : Node → σ → EDealRes × σ) (s : σ) : σ :=
  (walkList pNodeList .TRAVERSAL_POSTORDER walker s).2

mutual

/-- `rewriteNode` (`nodesTraverseFuncs.c` lines 165-274).  The slot (`SNode**`)
is the `Option Node` argument; the updated slot content is part of the result.
The rewriter callback receives the current node and leaves a node in the slot
(the code dereferences the slot unconditionally after a `PRE` callback, so a
continuing rewriter always leaves a node).  Because a `PRE` rewriter may
replace a node by an arbitrarily larger one and the engine then descends into
the replacement, the C recursion has no structural bound; it is embedded with
an explicit recursion budget `fuel`, one unit per node processed, and returns
`none` only when the budget is exhausted. -/
def rewriteNode {σ : Type} (fuel : Nat) (pRawNode : Option Node)
    (order : ETraversalOrder) (rewriter : Node → σ → EDealRes × Node × σ)
    (s : σ) : Option (EDealRes × Option Node × σ) :=
  match pRawNode with
  | none => some (.CONTINUE, none, s)
  | some n0 =>
    match fuel with
    | 0 => none
    | fuel + 1 =>
      let pre := if order = .TRAVERSAL_PREORDER then rewriter n0 s
        else (.CONTINUE, n0, s)
      if pre.1 ≠ .CONTINUE then some (pre.1, some pre.2.1, pre.2.2)
      else
        match rewriteChildren fuel pre.2.1 order rewriter pre.2.2 with
        | none => none
        | some mid =>
          if mid.1 ≠ .ERROR ∧ mid.1 ≠ .END ∧ order = .TRAVERSAL_POSTORDER then
            let post := rewriter mid.2.1 mid.2.2
            some (post.1, some post.2.1, post.2.2)
          else some (mid.1, some mid.2.1, mid.2.2)
termination_by (fuel, sizeOf pRawNode)

/-- The child-dispatch `switch` of `rewriteNode` (lines 180-267), case by case.
Each child slot is rewritten in the per-kind order; on a short-circuit the
later slots keep their current contents (the C code mutates in place). -/
def rewriteChildren {σ : Type} (fuel : Nat) (n : Node) (order : ETraversalOrder)
    (rewriter : Node → σ → EDealRes × Node × σ) (s : σ) :
    Option (EDealRes × Node × σ) :=
  match n with
  | .operator t pLeft pRight =>
    match rewriteNode fuel pLeft order rewriter s with
    | none => none
    | some c1 =>
      if c1.1 = .ERROR ∨ c1.1 = .END then
        some (c1.1, .operator t c1.2.1 pRight, c1.2.2)
      else
        match rewriteNode fuel pRight order rewriter c1.2.2 with
        | none => none
        | some c2 => some (c2.1, .operator t c1.2.1 c2.2.1, c2.2.2)
  | .logicCondition t pParameterList =>
    match rewriteList fuel pParameterList order rewriter s with
    | none => none
    | some r => some (r.1, .logicCondition t r.2.1, r.2.2)
  | .function fname pParameterList =>
    match rewriteList fuel pParameterList order rewriter s with
    | none => none
    | some r => some (r.1, .function fname r.2.1, r.2.2)
  | .joinTable t pLeft pRight pOnCond =>
    match rewriteNode fuel pLeft order rewriter s with
    | none => none
    | some c1 =>
      if c1.1 = .ERROR ∨ c1.1 = .END then
        some (c1.1, .joinTable t c1.2.1 pRight pOnCond, c1.2.2)
      else
        match rewriteNode fuel pRight order rewriter c1.2.2 with
        | none => none
        | some c2 =>
          if c2.1 = .ERROR ∨ c2.1 = .END then
            some (c2.1, .joinTable t c1.2.1 c2.2.1 pOnCond, c2.2.2)
          else
            match rewriteNode fuel pOnCond order rewriter c2.2.2 with
            | none => none
            | some c3 => some (c3.1, .joinTable t c1.2.1 c2.2.1 c3.2.1, c3.2.2)
  | .groupingSet pParameterList =>
    match rewriteList fuel pParameterList order rewriter s with
    | none => none
    | some r => some (r.1, .groupingSet r.2.1, r.2.2)
  | .orderByExpr pExpr o no =>
    match rewriteNode fuel pExpr order rewriter s with
    | none => none
    | some r => some (r.1, .orderByExpr r.2.1 o no, r.2.2)
  | .stateWindow pExpr pCol =>
    match rewriteNode fuel pExpr order rewriter s with
    | none => none
    | some c1 =>
      if c1.1 = .ERROR ∨ c1.1 = .END then
        some (c1.1, .stateWindow c1.2.1 pCol, c1.2.2)
      else
        match rewriteNode fuel pCol order rewriter c1.2.2 with
        | none => none
        | some c2 => some (c2.1, .stateWindow c1.2.1 c2.2.1, c2.2.2)
  | .sessionWindow pCol pGap =>
    match rewriteNode fuel pCol order rewriter s with
    | none => none
    | some c1 =>
      if c1.1 = .ERROR ∨ c1.1 = .END then
        some (c1.1, .sessionWindow c1.2.1 pGap, c1.2.2)
      else
        match rewriteNode fuel pGap order rewriter c1.2.2 with
        | none => none
        | some c2 => some (c2.1, .sessionWindow c1.2.1 c2.2.1, c2.2.2)
  | .intervalWindow pInterval pOffset pSliding pFill pCol =>
    match rewriteNode fuel pInterval order rewriter s with
    | none => none
    | some c1 =>
      if c1.1 = .ERROR ∨ c1.1 = .END then
        some (c1.1, .intervalWindow c1.2.1 pOffset pSliding pFill pCol, c1.2.2)
      else
        match rewriteNode fuel pOffset order rewriter c1.2.2 with
        | none => none
        | some c2 =>
          if c2.1 = .ERROR ∨ c2.1 = .END then
            some (c2.1, .intervalWindow c1.2.1 c2.2.1 pSliding pFill pCol, c2.2.2)
          else
            match rewriteNode fuel pSliding order rewriter c2.2.2 with
            | none => none
            | some c3 =>
              if c3.1 = .ERROR ∨ c3.1 = .END then
                some (c3.1, .intervalWindow c1.2.1 c2.2.1 c3.2.1 pFill pCol, c3.2.2)
              else
                match rewriteNode fuel pFill order rewriter c3.2.2 with
                | none => none
                | some c4 =>
                  if c4.1 = .ERROR ∨ c4.1 = .END then
                    some (c4.1, .intervalWindow c1.2.1 c2.2.1 c3.2.1 c4.2.1 pCol,
                      c4.2.2)
                  else
                    match rewriteNode fuel pCol order rewriter c4.2.2 with
                    | none => none
                    | some c5 =>
                      some (c5.1,
                        .intervalWindow c1.2.1 c2.2.1 c3.2.1 c4.2.1 c5.2.1,
                        c5.2.2)
  | .nodeListHolder pNodeList =>
    match rewriteList fuel pNodeList order rewriter s with
    | none => none
    | some r => some (r.1, .nodeListHolder r.2.1, r.2.2)
  | .fill m pValues =>
    match rewriteNode fuel pValues order rewriter s with
    | none => none
    | some r => some (r.1, .fill m r.2.1, r.2.2)
  | .rawExpr pInner =>
    match rewriteNode fuel pInner order rewriter s with
    | none => none
    | some r => some (r.1, .rawExpr r.2.1, r.2.2)
  | .target pExpr =>
    match rewriteNode fuel pExpr order rewriter s with
    | none => none
    | some r => some (r.1, .target r.2.1, r.2.2)
  | other => some (.CONTINUE, other, s)
termination_by (fuel, sizeOf n)

/-- `rewriteList` (lines 276-285): `FOREACH_FOR_REWRITE` hands each cell's
`SNode**` slot to `rewriteNode`, stopping at the first `ERROR`/`END`. -/
def rewriteList {σ : Type} (fuel : Nat) (pNodeList : Option SNodeList)
    (order : ETraversalOrder) (rewriter : Node → σ → EDealRes × Node × σ)
    (s : σ) : Option (EDealRes × Option SNodeList × σ) :=
  match pNodeList with
  | none => some (.CONTINUE, none, s)
  | some l =>
    match rewriteCells fuel l order rewriter s with
    | none => none
    | some r => some (r.1, some r.2.1, r.2.2)
termination_by (fuel, sizeOf pNodeList)

/-- The loop body of `rewriteList`: untouched suffix cells keep their
contents when an earlier cell short-circuits. -/
def rewriteCells {σ : Type} (fuel : Nat) (l : List (Option Node))
    (order : ETraversalOrder) (rewriter : Node → σ → EDealRes × Node × σ)
    (s : σ) : Option (EDealRes × List (Option Node) × σ) :=
  match l with
  | [] => some (.CONTINUE, [], s)
  | x :: xs =>
    match rewriteNode fuel x order rewriter s with
    | none => none
    | some c =>
      if c.1 = .ERROR ∨ c.1 = .END then some (c.1, c.2.1 :: xs, c.2.2)
      else
        match rewriteCells fuel xs order rewriter c.2.2 with
        | none => none
        | some r => some (r.1, c.2.1 :: r.2.1, r.2.2)
termination_by (fuel, sizeOf l)

end

/-- `nodesRewriteExpr` (lines 287-289): pre-order rewrite of one slot, result
code discarded; the updated slot and context survive. -/
def nodesRewriteExpr {σ : Type} (fuel : Nat) (pNode : Option Node)
    (rewriter : Node → σ → EDealRes × Node × σ) (s : σ) :
    Option (Option Node × σ) :=
  match rewriteNode fuel pNode .TRAVERSAL_PREORDER rewriter s with
  | none => none
  | some r => some (r.2.1, r.2.2)

/-- `nodesRewriteExprs` (lines 291-293). -/
def nodesRewriteExprs {σ : Type} (fuel : Nat) (pNodeList : Option SNodeList)
    (rewriter : Node → σ → EDealRes × Node × σ) (s : σ) :
    Option (Option SNodeList × σ) :=
  match rewriteList fuel pNodeList .TRAVERSAL_PREORDER rewriter s with
  | none => none
  | some r => some (r.2.1, r.2.2)

/-- `nodesRewriteExprPostOrder` (lines 295-297). -/
def nodesRewriteExprPostOrder {σ : Type} (fuel : Nat) (pNode : Option Node)
    (rewriter : Node → σ → EDealRes × Node × σ) (s : σ) :
    Option (Option Node × σ) :=
  match rewriteNode fuel pNode .TRAVERSAL_POSTORDER rewriter s with
  | none => none
  | some r => some (r.2.1, r.2.2)

/-- `nodesRewriteExprsPostOrder` (lines 299-301). -/
def nodesRewriteExprsPostOrder {σ : Type} (fuel : Nat) (pNodeList : Option SNodeList)
    (rewriter : Node → σ → EDealRes × Node × σ) (s : σ) :
    Option (Option SNodeList × σ) :=
  match rewriteList fuel pNodeList .TRAVERSAL_POSTORDER rewriter s with
  | none => none
  | some r => some (r.2.1, r.2.2)

/-- The `SSelectStmt` struct: the nine clause slots in pipeline order plus the
distinct/star flags and limit slots (`querynodes.h`; field set as used by
`nodesTraverseFuncs.c` and `astCreateFuncs.c`). -/
structure SSelectStmt where
  isDistinct : Bool
  isStar : Bool
  pProjectionList : Option SNodeList
  pFromTable : Option Node
  pWhere : Option Node
  pPartitionByList : Option SNodeList
  pWindow : Option Node
  pGroupByList : Option SNodeList
  pHaving : Option Node
  pOrderByList : Option SNodeList
  pSlimit : Option Node
  pLimit : Option Node
deriving Repr

/-- The clause identifiers of the SELECT pipeline (`ESqlClause`), in the fixed
pipeline order `FROM, WHERE, PARTITION_BY, WINDOW, GROUP_BY, HAVING, DISTINCT,
ORDER_BY, PROJECTION`. -/
inductive ESqlClause where
  | SQL_CLAUSE_FROM
  | SQL_CLAUSE_WHERE
  | SQL_CLAUSE_PARTITION_BY
  | SQL_CLAUSE_WINDOW
  | SQL_CLAUSE_GROUP_BY
  | SQL_CLAUSE_HAVING
  | SQL_CLAUSE_DISTINCT
  | SQL_CLAUSE_ORDER_BY
  | SQL_CLAUSE_PROJECTION
deriving DecidableEq, Repr

/-- `case SQL_CLAUSE_ORDER_BY:` of `nodesWalkSelectStmt` (line 323-324) and
everything it falls through to. -/
def walkSelCaseOrderBy {σ : Type} (p : SSelectStmt)
    (walker : Node → σ → EDealRes × σ) (s : σ) : σ :=
  nodesWalkExprs p.pProjectionList walker s

/-- `case SQL_CLAUSE_DISTINCT:` (line 321-322) and its fall-through. -/
def walkSelCaseDistinct {σ : Type} (p : SSelectStmt)
    (walker : Node → σ → EDealRes × σ) (s : σ) : σ :=
  walkSelCaseOrderBy p walker (nodesWalkExprs p.pOrderByList walker s)

/-- `case SQL_CLAUSE_HAVING:` (line 320): no statement of its own, falls
straight into the `DISTINCT` case. -/
def walkSelCaseHaving {σ : Type} (p : SSelectStmt)
    (walker : Node → σ → EDealRes × σ) (s : σ) : σ :=
  walkSelCaseDistinct p walker s

/-- `case SQL_CLAUSE_GROUP_BY:` (line 318-319) and its fall-through. -/
def walkSelCaseGroupBy {σ : Type} (p : SSelectStmt)
    (walker : Node → σ → EDealRes × σ) (s : σ) : σ :=
  walkSelCaseHaving p walker (nodesWalkExpr p.pHaving walker s)

/-- `case SQL_CLAUSE_WINDOW:` (line 316-317) and its fall-through. -/
def walkSelCaseWindow {σ : Type} (p : SSelectStmt)
    (walker : Node → σ → EDealRes × σ) (s : σ) : σ :=
  walkSelCaseGroupBy p walker (nodesWalkExprs p.pGroupByList walker s)

/-- `case SQL_CLAUSE_PARTITION_BY:` (line 314-315) and its fall-through. -/
def walkSelCasePartitionBy {σ : Type} (p : SSelectStmt)
    (walker : Node → σ → EDealRes × σ) (s : σ) : σ :=
  walkSelCaseWindow p walker (nodesWalkExpr p.pWindow walker s)

/-- `case SQL_CLAUSE_WHERE:` (line 312-313) and its fall-through. -/
def walkSelCaseWhere {σ : Type} (p : SSelectStmt)
    (walker : Node → σ → EDealRes × σ) (s : σ) : σ :=
  walkSelCasePartitionBy p walker (nodesWalkExprs p.pPartitionByList walker s)

/-- `case SQL_CLAUSE_FROM:` (lines 309-311): walks the from-table *and* the
where-predicate, then falls through to the `WHERE` case. -/
def walkSelCaseFrom {σ : Type} (p : SSelectStmt)
    (walker : Node → σ → EDealRes × σ) (s : σ) : σ :=
  walkSelCaseWhere p walker
    (nodesWalkExpr p.pWhere walker (nodesWalkExpr p.pFromTable walker s))

/-- `nodesWalkSelectStmt` (lines 303-330): a fall-through `switch` on the
starting clause; no `break` separates the cases, so each entry point runs its
own statements and then everything below it.  `SQL_CLAUSE_PROJECTION` has no
case label and lands on `default: break`. -/
def nodesWalkSelectStmt {σ : Type} (pSelect : Option SSelectStmt)
    (clause : ESqlClause) (walker : Node → σ → EDealRes × σ) (s : σ) : σ :=
  match pSelect with
  | none => s
  | some p =>
    match clause with
    | .SQL_CLAUSE_FROM => walkSelCaseFrom p walker s
    | .SQL_CLAUSE_WHERE => walkSelCaseWhere p walker s
    | .SQL_CLAUSE_PARTITION_BY => walkSelCasePartitionBy p walker s
    | .SQL_CLAUSE_WINDOW => walkSelCaseWindow p walker s
    | .SQL_CLAUSE_GROUP_BY => walkSelCaseGroupBy p walker s
    | .SQL_CLAUSE_HAVING => walkSelCaseHaving p walker s
    | .SQL_CLAUSE_DISTINCT => walkSelCaseDistinct p walker s
    | .SQL_CLAUSE_ORDER_BY => walkSelCaseOrderBy p walker s
    | .SQL_CLAUSE_PROJECTION => s

/-- `case SQL_CLAUSE_ORDER_BY:` of `nodesRewriteSelectStmt` (line 352-353). -/
def rewriteSelCaseOrderBy {σ : Type} (fuel : Nat) (p : SSelectStmt)
    (rewriter : Node → σ → EDealRes × Node × σ) (s : σ) :
    Option (SSelectStmt × σ) :=
  match nodesRewriteExprs fuel p.pProjectionList rewriter s with
  | none => none
  | some r =>
    some (⟨p.isDistinct, p.isStar, r.1, p.pFromTable, p.pWhere,
      p.pPartitionByList, p.pWindow, p.pGroupByList, p.pHaving, p.pOrderByList,
      p.pSlimit, p.pLimit⟩, r.2)

/-- `case SQL_CLAUSE_DISTINCT:` (line 350-351) and its fall-through. -/
def rewriteSelCaseDistinct {σ : Type} (fuel : Nat) (p : SSelectStmt)
    (rewriter : Node → σ → EDealRes × Node × σ) (s : σ) :
    Option (SSelectStmt × σ) :=
  match nodesRewriteExprs fuel p.pOrderByList rewriter s with
  | none => none
  | some r =>
    rewriteSelCaseOrderBy fuel
      ⟨p.isDistinct, p.isStar, p.pProjectionList, p.pFromTable, p.pWhere,
        p.pPartitionByList, p.pWindow, p.pGroupByList, p.pHaving, r.1,
        p.pSlimit, p.pLimit⟩ rewriter r.2

/-- `case SQL_CLAUSE_HAVING:` (line 349): falls straight into `DISTINCT`. -/
def rewriteSelCaseHaving {σ : Type} (fuel : Nat) (p : SSelectStmt)
    (rewriter : Node → σ → EDealRes × Node × σ) (s : σ) :
    Option (SSelectStmt × σ) :=
  rewriteSelCaseDistinct fuel p rewriter s

/-- `case SQL_CLAUSE_GROUP_BY:` (line 347-348) and its fall-through. -/
def rewriteSelCaseGroupBy {σ : Type} (fuel : Nat) (p : SSelectStmt)
    (rewriter : Node → σ → EDealRes × Node × σ) (s : σ) :
    Option (SSelectStmt × σ) :=
  match nodesRewriteExpr fuel p.pHaving rewriter s with
  | none => none
  | some r =>
    rewriteSelCaseHaving fuel
      ⟨p.isDistinct, p.isStar, p.pProjectionList, p.pFromTable, p.pWhere,
        p.pPartitionByList, p.pWindow, p.pGroupByList, r.1, p.pOrderByList,
        p.pSlimit, p.pLimit⟩ rewriter r.2

/-- `case SQL_CLAUSE_WINDOW:` (line 345-346) and its fall-through. -/
def rewriteSelCaseWindow {σ : Type} (fuel : Nat) (p : SSelectStmt)
    (rewriter : Node → σ → EDealRes × Node × σ) (s : σ) :
    Option (SSelectStmt × σ) :=
  match nodesRewriteExprs fuel p.pGroupByList rewriter s with
  | none => none
  | some r =>
    rewriteSelCaseGroupBy fuel
      ⟨p.isDistinct, p.isStar, p.pProjectionList, p.pFromTable, p.pWhere,
        p.pPartitionByList, p.pWindow, r.1, p.pHaving, p.pOrderByList,
        p.pSlimit, p.pLimit⟩ rewriter r.2

/-- `case SQL_CLAUSE_PARTITION_BY:` (line 343-344) and its fall-through. -/
def rewriteSelCasePartitionBy {σ : Type} (fuel : Nat) (p : SSelectStmt)
    (rewriter : Node → σ → EDealRes × Node × σ) (s : σ) :
    Option (SSelectStmt × σ) :=
  match nodesRewriteExpr fuel p.pWindow rewriter s with
  | none => none
  | some r =>
    rewriteSelCaseWindow fuel
      ⟨p.isDistinct, p.isStar, p.pProjectionList, p.pFromTable, p.pWhere,
        p.pPartitionByList, r.1, p.pGroupByList, p.pHaving, p.pOrderByList,
        p.pSlimit, p.pLimit⟩ rewriter r.2

/-- `case SQL_CLAUSE_WHERE:` (line 341-342) and its fall-through. -/
def rewriteSelCaseWhere {σ : Type} (fuel : Nat) (p : SSelectStmt)
    (rewriter : Node → σ → EDealRes × Node × σ) (s : σ) :
    Option (SSelectStmt × σ) :=
  match nodesRewriteExprs fuel p.pPartitionByList rewriter s with
  | none => none
  | some r =>
    rewriteSelCasePartitionBy fuel
      ⟨p.isDistinct, p.isStar, p.pProjectionList, p.pFromTable, p.pWhere,
        r.1, p.pWindow, p.pGroupByList, p.pHaving, p.pOrderByList,
        p.pSlimit, p.pLimit⟩ rewriter r.2

/-- `case SQL_CLAUSE_FROM:` (lines 338-340): rewrites the from-table slot *and*
the where slot, then falls through to the `WHERE` case. -/
def rewriteSelCaseFrom {σ : Type} (fuel : Nat) (p : SSelectStmt)
    (rewriter : Node → σ → EDealRes × Node × σ) (s : σ) :
    Option (SSelectStmt × σ) :=
  match nodesRewriteExpr fuel p.pFromTable rewriter s with
  | none => none
  | some r1 =>
    match nodesRewriteExpr fuel p.pWhere rewriter r1.2 with
    | none => none
    | some r2 =>
      rewriteSelCaseWhere fuel
        ⟨p.isDistinct, p.isStar, p.pProjectionList, r1.1, r2.1,
          p.pPartitionByList, p.pWindow, p.pGroupByList, p.pHaving,
          p.pOrderByList, p.pSlimit, p.pLimit⟩ rewriter r2.2

/-- `nodesRewriteSelectStmt` (lines 332-359): the same fall-through `switch`
as the walk driver, over slot-rewriting actions. -/
def nodesRewriteSelectStmt {σ : Type} (fuel : Nat) (pSelect : Option SSelectStmt)
    (clause : ESqlClause) (rewriter : Node → σ → EDealRes × Node × σ) (s : σ) :
    Option (Option SSelectStmt × σ) :=
  match pSelect with
  | none => some (none, s)
  | some p =>
    let run : Option (SSelectStmt × σ) :=
      match clause with
      | .SQL_CLAUSE_FROM => rewriteSelCaseFrom fuel p rewriter s
      | .SQL_CLAUSE_WHERE => rewriteSelCaseWhere fuel p rewriter s
      | .SQL_CLAUSE_PARTITION_BY => rewriteSelCasePartitionBy fuel p rewriter s
      | .SQL_CLAUSE_WINDOW => rewriteSelCaseWindow fuel p rewriter s
      | .SQL_CLAUSE_GROUP_BY => rewriteSelCaseGroupBy fuel p rewriter s
      | .SQL_CLAUSE_HAVING => rewriteSelCaseHaving fuel p rewriter s
      | .SQL_CLAUSE_DISTINCT => rewriteSelCaseDistinct fuel p rewriter s
      | .SQL_CLAUSE_ORDER_BY => rewriteSelCaseOrderBy fuel p rewriter s
      | .SQL_CLAUSE_PROJECTION => some (p, s)
    match run with
    | none => none
    | some r => some (some r.1, r.2)

/-- A lexer token (`SToken`): `n` is the token length, `z` the token text.
`TK_NIL`-style type tags are not needed by the verified operations. -/
structure SToken where
  n : Nat
  z : String
deriving DecidableEq, Repr

/-- Modelled from the spec: the maximum database-name length.  The numeric
value of `TSDB_DB_NAME_LEN` lives in a header outside this excerpt; every
theorem below depends only on the symbolic bound. -/
def TSDB_DB_NAME_LEN : Nat := 65

/-- Modelled from the spec: the maximum table-name length.  The numeric value
of `TSDB_TABLE_NAME_LEN` lives in a header outside this excerpt; every theorem
below depends only on the symbolic bound. -/
def TSDB_TABLE_NAME_LEN : Nat := 193

/-- Modelled from the spec: the maximum column-name length.  The numeric value
of `TSDB_COL_NAME_LEN` lives in a header outside this excerpt. -/
def TSDB_COL_NAME_LEN : Nat := 65

/-- The Build Context (`SAstCreateContext`): the shared `valid` flag threaded
through every factory call. -/
structure SAstCreateContext where
  valid : Bool
deriving DecidableEq, Repr

/-- Modelled from the spec: an allocation oracle giving the outcome of each
successive heap allocation (`nodesMakeNode` / `nodesMakeList`, which live
outside this excerpt).  Out-of-memory is an environment event; an exhausted
oracle means every further allocation succeeds. -/
def allocStep : List Bool → Bool × List Bool
  | [] => (true, [])
  | b :: rest => (b, rest)

/-- Modelled from the spec: `nodesListAppend` (in `nodesUtil.c`, outside this
excerpt) appends to a NodeList in O(1) preserving insertion order; appending
through a null list pointer leaves null (the C call returns NULL and the
callers here discard the result). -/
def nodesListAppend (pList : Option SNodeList) (pNode : Option Node) :
    Option SNodeList :=
  match pList with
  | none => none
  | some l => some (l ++ [pNode])

/-- `checkDbName` (`astCreateFuncs.c` lines 29-35).  Note that the check
*assigns* the flag: `pCxt->valid = pDbName->n < TSDB_DB_NAME_LEN`. -/
def checkDbName (pCxt : SAstCreateContext) (pDbName : Option SToken) :
    SAstCreateContext × Bool :=
  match pDbName with
  | none => (pCxt, true)
  | some tok =>
    let v := decide (tok.n < TSDB_DB_NAME_LEN)
    (⟨v⟩, v)

/-- `checkTableName` (lines 37-43): `pCxt->valid = pTableName->n <
TSDB_TABLE_NAME_LEN`. -/
def checkTableName (pCxt : SAstCreateContext) (pTableName : Option SToken) :
    SAstCreateContext × Bool :=
  match pTableName with
  | none => (pCxt, true)
  | some tok =>
    let v := decide (tok.n < TSDB_TABLE_NAME_LEN)
    (⟨v⟩, v)

/-- `checkColumnName` (lines 45-51). -/
def checkColumnName (pCxt : SAstCreateContext) (pColumnName : Option SToken) :
    SAstCreateContext × Bool :=
  match pColumnName with
  | none => (pCxt, true)
  | some tok =>
    let v := decide (tok.n < TSDB_COL_NAME_LEN)
    (⟨v⟩, v)

/-- The result of one factory call: updated Build Context, remaining
allocation oracle, and the returned node (`NULL` = `none`). -/
abbrev FactoryResult := SAstCreateContext × List Bool × Option Node

/-- `createValueNode` (lines 76-81): allocate a value node
(`CHECK_OUT_OF_MEM`) and return it; the literal is not yet decoded (`todo` in
the source). -/
def createValueNode (pCxt : SAstCreateContext) (oracle : List Bool)
    (dataType : Nat) (pLiteral : Option SToken) : FactoryResult :=
  let a := allocStep oracle
  if ¬ a.1 then (⟨false⟩, a.2, none)
  else (pCxt, a.2, some .value)

/-- `createColumnNode` (lines 63-74): check both identifiers, then allocate and
fill a column node.  The source dereferences `pColumnName` unconditionally for
the copy; the grammar never passes NULL there, and a NULL column token is
modelled as copying an empty name. -/
def createColumnNode (pCxt : SAstCreateContext) (oracle : List Bool)
    (pTableName pColumnName : Option SToken) : FactoryResult :=
  let c1 := checkTableName pCxt pTableName
  if ¬ c1.2 then (c1.1, oracle, none)
  else
    let c2 := checkColumnName c1.1 pColumnName
    if ¬ c2.2 then (c2.1, oracle, none)
    else
      let a := allocStep oracle
      if ¬ a.1 then (⟨false⟩, a.2, none)
      else
        let tname := match pTableName with
          | none => ""
          | some tok => tok.z
        let cname := match pColumnName with
          | none => ""
          | some tok => tok.z
        (c2.1, a.2, some (.column tname cname))

/-- `createLogicConditionNode` (lines 94-102): the node allocation is guarded
by `CHECK_OUT_OF_MEM`, but the parameter-list allocation
(`cond->pParameterList = nodesMakeList()`) is not checked, and the results of
the two appends are discarded. -/
def createLogicConditionNode (pCxt : SAstCreateContext) (oracle : List Bool)
    (condType : ELogicConditionType) (pParam1 pParam2 : Option Node) :
    FactoryResult :=
  let a := allocStep oracle
  if ¬ a.1 then (⟨false⟩, a.2, none)
  else
    let b := allocStep a.2
    let plist0 : Option SNodeList := if b.1 then some [] else none
    let plist1 := nodesListAppend plist0 pParam1
    let plist2 := nodesListAppend plist1 pParam2
    (pCxt, b.2, some (.logicCondition condType plist2))

/-- `createOperatorNode` (lines 104-111). -/
def createOperatorNode (pCxt : SAstCreateContext) (oracle : List Bool)
    (opType : EOperatorType) (pLeft pRight : Option Node) : FactoryResult :=
  let a := allocStep oracle
  if ¬ a.1 then (⟨false⟩, a.2, none)
  else (pCxt, a.2, some (.operator opType pLeft pRight))

/-- `createBetweenAnd` (lines 113-116): desugars `e BETWEEN a AND b` into
`(e >= a) AND (e <= b)`. -/
def createBetweenAnd (pCxt : SAstCreateContext) (oracle : List Bool)
    (pExpr pLeft pRight : Option Node) : FactoryResult :=
  let g := createOperatorNode pCxt oracle .OP_TYPE_GREATER_EQUAL pExpr pLeft
  let l := createOperatorNode g.1 g.2.1 .OP_TYPE_LOWER_EQUAL pExpr pRight
  createLogicConditionNode l.1 l.2.1 .LOGIC_COND_TYPE_AND g.2.2 l.2.2

/-- `createNotBetweenAnd` (lines 118-121): desugars `e NOT BETWEEN a AND b`
into `(e < a) OR (e > b)`. -/
def createNotBetweenAnd (pCxt : SAstCreateContext) (oracle : List Bool)
    (pExpr pLeft pRight : Option Node) : FactoryResult :=
  let lt := createOperatorNode pCxt oracle .OP_TYPE_LOWER_THAN pExpr pLeft
  let gt := createOperatorNode lt.1 lt.2.1 .OP_TYPE_GREATER_THAN pExpr pRight
  createLogicConditionNode gt.1 gt.2.1 .LOGIC_COND_TYPE_OR lt.2.2 gt.2.2

/-- `createRealTableNode` (lines 146-157): check the database and table names
(`!checkDbName(..) || !checkTableName(..)` short-circuits), then allocate and
fill the node. -/
def createRealTableNode (pCxt : SAstCreateContext) (oracle : List Bool)
    (pDbName pTableName pTableAlias : Option SToken) : FactoryResult :=
  let c1 := checkDbName pCxt pDbName
  if ¬ c1.2 then (c1.1, oracle, none)
  else
    let c2 := checkTableName c1.1 pTableName
    if ¬ c2.2 then (c2.1, oracle, none)
    else
      let a := allocStep oracle
      if ¬ a.1 then (⟨false⟩, a.2, none)
      else
        let dbname := match pDbName with
          | none => ""
          | some tok => tok.z
        let tname := match pTableName with
          | none => ""
          | some tok => tok.z
        (c2.1, a.2, some (.realTable dbname tname))

/-- `createTempTableNode` (lines 159-164). -/
def createTempTableNode (pCxt : SAstCreateContext) (oracle : List Bool)
    (pSubquery : Option Node) (pTableAlias : Option SToken) : FactoryResult :=
  let a := allocStep oracle
  if ¬ a.1 then (⟨false⟩, a.2, none)
  else (pCxt, a.2, some (.tempTable pSubquery))

/-- Wrap a visitor so that, besides its own context `σ`, it records the nodes
it is invoked on, in order.  This is the observer used to state which nodes a
walk visits. -/
def wlog {σ : Type} (f : Node → σ → EDealRes × σ) :
    Node → σ × List Node → EDealRes × (σ × List Node) :=
  fun x p => ((f x p.1).1, ((f x p.1).2, p.2 ++ [x]))

/-- Replay a visitor along a list of nodes, stopping at the first
non-`CONTINUE` outcome; returns the outcome, the final context and the list of
nodes actually fed to the visitor. -/
def scanNodes {σ : Type} (f : Node → σ → EDealRes × σ) :
    σ → List Node → EDealRes × σ × List Node
  | s, [] => (.CONTINUE, s, [])
  | s, x :: xs =>
    if (f x s).1 = .CONTINUE then
      ((scanNodes f (f x s).2 xs).1, (scanNodes f (f x s).2 xs).2.1,
        x :: (scanNodes f (f x s).2 xs).2.2)
    else ((f x s).1, (f x s).2, [x])

/-- A context-polymorphic runner of one traversal: what `walkNode`/`walkList`
applied to fixed tree arguments look like from the visitor's side. -/
def WalkerRun := ∀ (σ : Type), (Node → σ → EDealRes × σ) → σ → EDealRes × σ

/-- `Lin A L` says the runner `A` is the linear replay of its visitor along the
fixed node list `L`: for every visitor and every starting context and log, the
instrumented run equals `scanNodes` over `L`.  In particular `A` invokes its
visitor on exactly a prefix of `L`, in order. -/
def Lin (A : WalkerRun) (L : List Node) : Prop :=
  ∀ (σ : Type) (f : Node → σ → EDealRes × σ) (s : σ) (l₀ : List Node),
    A (σ × List Node) (wlog f) (s, l₀) =
      ((scanNodes f s L).1, (scanNodes f s L).2.1, l₀ ++ (scanNodes f s L).2.2)

/-- `walkNode` with its tree-side arguments fixed, as a `WalkerRun`. -/
def runWalkNode (pNode : Option Node) (order : ETraversalOrder) : WalkerRun :=
  fun σ f s => @walkNode σ pNode order f s

/-- `walkChildren` with its tree-side arguments fixed, as a `WalkerRun`. -/
def runWalkChildren (n : Node) (order : ETraversalOrder) : WalkerRun :=
  fun σ f s => @walkChildren σ n order f s

/-- `walkList` with its tree-side arguments fixed, as a `WalkerRun`. -/
def runWalkList (pNodeList : Option SNodeList) (order : ETraversalOrder) :
    WalkerRun :=
  fun σ f s => @walkList σ pNodeList order f s

/-- `walkCells` with its tree-side arguments fixed, as a `WalkerRun`. -/
def runWalkCells (l : List (Option Node)) (order : ETraversalOrder) :
    WalkerRun :=
  fun σ f s => @walkCells σ l order f s

/-- The trivial recording visitor: no context of its own, always continues. -/
def tick : Node → Unit → EDealRes × Unit := fun _ u => (.CONTINUE, u)

/-- The full visit sequence of a walk: the nodes an always-continuing
(recording) visitor is invoked on, in order.  This is the declared traversal
order of the engine for the given pre/post order. -/
def fullSeq (order : ETraversalOrder) (pNode : Option Node) : List Node :=
  (walkNode pNode order (wlog tick) (((), []) : Unit × List Node)).2.2

/-- The full visit sequence of the child-dispatch step alone. -/
def childSeq (order : ETraversalOrder) (n : Node) : List Node :=
  (walkChildren n order (wlog tick) (((), []) : Unit × List Node)).2.2

/-- Wrap a rewriter so that, besides its own context `σ`, it records the nodes
it is invoked on, in order. -/
def wlogRw {σ : Type} (g : Node → σ → EDealRes × Node × σ) :
    Node → σ × List Node → EDealRes × Node × (σ × List Node) :=
  fun x p => ((g x p.1).1, (g x p.1).2.1, ((g x p.1).2.2, p.2 ++ [x]))

/-- Concrete instance for `walk_short_circuit`: a pre-order walk of a
comparison operator whose visitor errors on the second column. -/
def c5visitor : Node → Nat → EDealRes × Nat := fun n k =>
  match n with
  | .column _ _ => if 2 ≤ k then (.ERROR, k) else (.CONTINUE, k + 1)
  | _ => (.CONTINUE, k + 1)

/-- The tree used by the short-circuit witness. -/
def c5tree : Option Node :=
  some (.operator .OP_TYPE_LOWER_THAN (some (.column "a" "x"))
    (some (.column "b" "y")))

/-- The rewriter used by the replacement witness: replaces any operator node
with a bare value node and counts its invocations. -/
def c6rewriter : Node → Nat → EDealRes × Node × Nat := fun n k =>
  match n with
  | .operator _ _ _ => (.CONTINUE, .value, k + 1)
  | x => (.CONTINUE, x, k + 1)

/-- The walk action owned by one clause, per the §4.4 clause-to-content map:
`FROM` owns the from-table, `WHERE` the where-predicate, and so on;
`DISTINCT` owns no sub-expression and is a no-op step. -/
def walkClauseStep {σ : Type} (p : SSelectStmt) (c : ESqlClause)
    (walker : Node → σ → EDealRes × σ) (s : σ) : σ :=
  match c with
  | .SQL_CLAUSE_FROM => nodesWalkExpr p.pFromTable walker s
  | .SQL_CLAUSE_WHERE => nodesWalkExpr p.pWhere walker s
  | .SQL_CLAUSE_PARTITION_BY => nodesWalkExprs p.pPartitionByList walker s
  | .SQL_CLAUSE_WINDOW => nodesWalkExpr p.pWindow walker s
  | .SQL_CLAUSE_GROUP_BY => nodesWalkExprs p.pGroupByList walker s
  | .SQL_CLAUSE_HAVING => nodesWalkExpr p.pHaving walker s
  | .SQL_CLAUSE_DISTINCT => s
  | .SQL_CLAUSE_ORDER_BY => nodesWalkExprs p.pOrderByList walker s
  | .SQL_CLAUSE_PROJECTION => nodesWalkExprs p.pProjectionList walker s

/-- Walk the listed clauses of a select statement, in order. -/
def runWalkClauses {σ : Type} (p : SSelectStmt) (cs : List ESqlClause)
    (walker : Node → σ → EDealRes × σ) (s : σ) : σ :=
  match cs with
  | [] => s
  | c :: rest => runWalkClauses p rest walker (walkClauseStep p c walker s)

/-- The rewrite action owned by one clause: rewrite that clause's slot and
store the result back. -/
def rewriteClauseStep {σ : Type} (fuel : Nat) (p : SSelectStmt) (c : ESqlClause)
    (rewriter : Node → σ → EDealRes × Node × σ) (s : σ) :
    Option (SSelectStmt × σ) :=
  match c with
  | .SQL_CLAUSE_FROM =>
    match nodesRewriteExpr fuel p.pFromTable rewriter s with
    | none => none
    | some r =>
      some (⟨p.isDistinct, p.isStar, p.pProjectionList, r.1, p.pWhere,
        p.pPartitionByList, p.pWindow, p.pGroupByList, p.pHaving, p.pOrderByList,
        p.pSlimit, p.pLimit⟩, r.2)
  | .SQL_CLAUSE_WHERE =>
    match nodesRewriteExpr fuel p.pWhere rewriter s with
    | none => none
    | some r =>
      some (⟨p.isDistinct, p.isStar, p.pProjectionList, p.pFromTable, r.1,
        p.pPartitionByList, p.pWindow, p.pGroupByList, p.pHaving, p.pOrderByList,
        p.pSlimit, p.pLimit⟩, r.2)
  | .SQL_CLAUSE_PARTITION_BY =>
    match nodesRewriteExprs fuel p.pPartitionByList rewriter s with
    | none => none
    | some r =>
      some (⟨p.isDistinct, p.isStar, p.pProjectionList, p.pFromTable, p.pWhere,
        r.1, p.pWindow, p.pGroupByList, p.pHaving, p.pOrderByList,
        p.pSlimit, p.pLimit⟩, r.2)
  | .SQL_CLAUSE_WINDOW =>
    match nodesRewriteExpr fuel p.pWindow rewriter s with
    | none => none
    | some r =>
      some (⟨p.isDistinct, p.isStar, p.pProjectionList, p.pFromTable, p.pWhere,
        p.pPartitionByList, r.1, p.pGroupByList, p.pHaving, p.pOrderByList,
        p.pSlimit, p.pLimit⟩, r.2)
  | .SQL_CLAUSE_GROUP_BY =>
    match nodesRewriteExprs fuel p.pGroupByList rewriter s with
    | none => none
    | some r =>
      some (⟨p.isDistinct, p.isStar, p.pProjectionList, p.pFromTable, p.pWhere,
        p.pPartitionByList, p.pWindow, r.1, p.pHaving, p.pOrderByList,
        p.pSlimit, p.pLimit⟩, r.2)
  | .SQL_CLAUSE_HAVING =>
    match nodesRewriteExpr fuel p.pHaving rewriter s with
    | none => none
    | some r =>
      some (⟨p.isDistinct, p.isStar, p.pProjectionList, p.pFromTable, p.pWhere,
        p.pPartitionByList, p.pWindow, p.pGroupByList, r.1, p.pOrderByList,
        p.pSlimit, p.pLimit⟩, r.2)
  | .SQL_CLAUSE_DISTINCT => some (p, s)
  | .SQL_CLAUSE_ORDER_BY =>
    match nodesRewriteExprs fuel p.pOrderByList rewriter s with
    | none => none
    | some r =>
      some (⟨p.isDistinct, p.isStar, p.pProjectionList, p.pFromTable, p.pWhere,
        p.pPartitionByList, p.pWindow, p.pGroupByList, p.pHaving, r.1,
        p.pSlimit, p.pLimit⟩, r.2)
  | .SQL_CLAUSE_PROJECTION =>
    match nodesRewriteExprs fuel p.pProjectionList rewriter s with
    | none => none
    | some r =>
      some (⟨p.isDistinct, p.isStar, r.1, p.pFromTable, p.pWhere,
        p.pPartitionByList, p.pWindow, p.pGroupByList, p.pHaving, p.pOrderByList,
        p.pSlimit, p.pLimit⟩, r.2)

/-- Rewrite the listed clauses of a select statement, in order. -/
def runRewriteClauses {σ : Type} (fuel : Nat) (p : SSelectStmt)
    (cs : List ESqlClause) (rewriter : Node → σ → EDealRes × Node × σ) (s : σ) :
    Option (SSelectStmt × σ) :=
  match cs with
  | [] => some (p, s)
  | c :: rest =>
    match rewriteClauseStep fuel p c rewriter s with
    | none => none
    | some r => runRewriteClauses fuel r.1 rest rewriter r.2

/-- The nine clause identifiers in pipeline order. -/
def sqlClausePipeline : List ESqlClause :=
  [.SQL_CLAUSE_FROM, .SQL_CLAUSE_WHERE, .SQL_CLAUSE_PARTITION_BY,
    .SQL_CLAUSE_WINDOW, .SQL_CLAUSE_GROUP_BY, .SQL_CLAUSE_HAVING,
    .SQL_CLAUSE_DISTINCT, .SQL_CLAUSE_ORDER_BY, .SQL_CLAUSE_PROJECTION]

/-- The clauses strictly after a given clause in pipeline order. -/
def clausesStrictlyAfter : ESqlClause → List ESqlClause
  | .SQL_CLAUSE_FROM =>
    [.SQL_CLAUSE_WHERE, .SQL_CLAUSE_PARTITION_BY, .SQL_CLAUSE_WINDOW,
      .SQL_CLAUSE_GROUP_BY, .SQL_CLAUSE_HAVING, .SQL_CLAUSE_DISTINCT,
      .SQL_CLAUSE_ORDER_BY, .SQL_CLAUSE_PROJECTION]
  | .SQL_CLAUSE_WHERE =>
    [.SQL_CLAUSE_PARTITION_BY, .SQL_CLAUSE_WINDOW, .SQL_CLAUSE_GROUP_BY,
      .SQL_CLAUSE_HAVING, .SQL_CLAUSE_DISTINCT, .SQL_CLAUSE_ORDER_BY,
      .SQL_CLAUSE_PROJECTION]
  | .SQL_CLAUSE_PARTITION_BY =>
    [.SQL_CLAUSE_WINDOW, .SQL_CLAUSE_GROUP_BY, .SQL_CLAUSE_HAVING,
      .SQL_CLAUSE_DISTINCT, .SQL_CLAUSE_ORDER_BY, .SQL_CLAUSE_PROJECTION]
  | .SQL_CLAUSE_WINDOW =>
    [.SQL_CLAUSE_GROUP_BY, .SQL_CLAUSE_HAVING, .SQL_CLAUSE_DISTINCT,
      .SQL_CLAUSE_ORDER_BY, .SQL_CLAUSE_PROJECTION]
  | .SQL_CLAUSE_GROUP_BY =>
    [.SQL_CLAUSE_HAVING, .SQL_CLAUSE_DISTINCT, .SQL_CLAUSE_ORDER_BY,
      .SQL_CLAUSE_PROJECTION]
  | .SQL_CLAUSE_HAVING =>
    [.SQL_CLAUSE_DISTINCT, .SQL_CLAUSE_ORDER_BY, .SQL_CLAUSE_PROJECTION]
  | .SQL_CLAUSE_DISTINCT => [.SQL_CLAUSE_ORDER_BY, .SQL_CLAUSE_PROJECTION]
  | .SQL_CLAUSE_ORDER_BY => [.SQL_CLAUSE_PROJECTION]
  | .SQL_CLAUSE_PROJECTION => []

/-- The clauses the driver actually processes when started at `c`: all nine
when started at `FROM`, and exactly the clauses strictly after `c` otherwise
(the clause pipeline as the fall-through `switch` implements it). -/
def driverClauses : ESqlClause → List ESqlClause
  | .SQL_CLAUSE_FROM => sqlClausePipeline
  | c => clausesStrictlyAfter c

/-- A select statement whose only populated clause is a one-element group-by
list. -/
def cexSelect : SSelectStmt :=
  ⟨false, false, none, none, none, none, none, some [some (.column "t" "c1")],
    none, none, none, none⟩

theorem scan_cont_log {σ : Type} (f : Node → σ → EDealRes × σ) :
    ∀ (L : List Node) (s : σ), (scanNodes f s L).1 = .CONTINUE →
      (scanNodes f s L).2.2 = L := by
  intro L
  induction L with
  | nil => intro s _; rfl
  | cons x xs ih =>
    intro s h
    by_cases hc : (f x s).1 = .CONTINUE
    · rw [scanNodes, if_pos hc] at h ⊢
      exact congrArg (List.cons x) (ih _ h)
    · rw [scanNodes, if_neg hc] at h
      exact absurd h hc

theorem scan_append {σ : Type} (f : Node → σ → EDealRes × σ) :
    ∀ (L₁ L₂ : List Node) (s : σ),
      scanNodes f s (L₁ ++ L₂) =
        if (scanNodes f s L₁).1 = .CONTINUE then
          ((scanNodes f (scanNodes f s L₁).2.1 L₂).1,
            (scanNodes f (scanNodes f s L₁).2.1 L₂).2.1,
            (scanNodes f s L₁).2.2 ++ (scanNodes f (scanNodes f s L₁).2.1 L₂).2.2)
        else scanNodes f s L₁ := by
  intro L₁
  induction L₁ with
  | nil => intro L₂ s; simp [scanNodes]
  | cons x xs ih =>
    intro L₂ s
    by_cases hc : (f x s).1 = .CONTINUE
    · rw [List.cons_append, scanNodes, if_pos hc, ih, scanNodes, if_pos hc]
      by_cases hc2 : (scanNodes f (f x s).2 xs).1 = .CONTINUE
      · rw [if_pos hc2]
        simp [hc2]
      · rw [if_neg hc2]
        simp [hc2]
    · rw [List.cons_append, scanNodes, if_neg hc, scanNodes, if_neg hc]
      simp [hc]

/-- A runner that does nothing replays the empty list. -/
theorem lin_skip : Lin (fun _ _ s => (.CONTINUE, s)) [] := by
  intro σ f s l₀
  simp [scanNodes]

/-- Pointwise equal runners linearize to the same list. -/
theorem lin_congr {A B : WalkerRun}
    (h : ∀ (σ : Type) (f : Node → σ → EDealRes × σ) (s : σ), A σ f s = B σ f s)
    {L : List Node} (hB : Lin B L) : Lin A L := by
  intro σ f s l₀
  rw [h]
  exact hB σ f s l₀

/-- `dealSeq` composes linearizations by concatenation. -/
theorem lin_dealSeq {A B : WalkerRun} {L₁ L₂ : List Node}
    (hA : Lin A L₁) (hB : Lin B L₂) :
    Lin (fun σ f s => dealSeq (A σ f s) (fun s1 => B σ f s1)) (L₁ ++ L₂) := by
  intro σ f s l₀
  rw [scan_append]
  simp only [dealSeq, hA σ f s l₀]
  cases ht : (scanNodes f s L₁).1 with
  | CONTINUE =>
    simp only [ht]
    have hb := hB σ f (scanNodes f s L₁).2.1 (l₀ ++ (scanNodes f s L₁).2.2)
    simp only [ne_eq, reduceCtorEq, not_false_eq_true, and_self, if_true, if_pos,
      reduceIte, hb, List.append_assoc]
  | ERROR => simp [ht]
  | END => simp [ht]

/-- A leading `PRE` visitor call prepends its node to the linearization. -/
theorem lin_preVisit {A : WalkerRun} {L : List Node} (n : Node) (hA : Lin A L) :
    Lin (fun σ w s =>
      if (w n s).1 ≠ .CONTINUE then w n s else A σ w (w n s).2) (n :: L) := by
  intro σ f s l₀
  by_cases hc : (f n s).1 = .CONTINUE
  · have ha := hA σ f (f n s).2 (l₀ ++ [n])
    simp only [wlog, hc, ne_eq, not_true_eq_false, if_false, reduceIte, ha,
      scanNodes, if_pos, List.append_assoc, List.singleton_append]
  · simp [wlog, hc, scanNodes]

/-- A trailing `POST` visitor call appends its node to the linearization. -/
theorem lin_postVisit {A : WalkerRun} {L : List Node} (n : Node) (hA : Lin A L) :
    Lin (fun σ w s =>
      if (A σ w s).1 ≠ .ERROR ∧ (A σ w s).1 ≠ .END then w n (A σ w s).2
      else A σ w s) (L ++ [n]) := by
  intro σ f s l₀
  rw [scan_append]
  simp only [hA σ f s l₀]
  cases ht : (scanNodes f s L).1 with
  | CONTINUE =>
    simp only [ht, ne_eq, reduceCtorEq, not_false_eq_true, and_self, if_true,
      if_pos, reduceIte, wlog, scanNodes, List.append_assoc]
    by_cases hc : (f n (scanNodes f s L).2.1).1 = .CONTINUE
    · simp [hc, scanNodes]
    · simp [hc, scanNodes]
  | ERROR => simp [ht]
  | END => simp [ht]

theorem walkNode_some_pre {σ : Type} (n : Node)
    (f : Node → σ → EDealRes × σ) (s : σ) :
    walkNode (some n) .TRAVERSAL_PREORDER f s =
      if (f n s).1 ≠ .CONTINUE then f n s
      else walkChildren n .TRAVERSAL_PREORDER f (f n s).2 := by
  rw [walkNode]
  by_cases hc : (f n s).1 = .CONTINUE
  · simp [hc]
  · simp [hc]

theorem walkNode_some_post {σ : Type} (n : Node)
    (f : Node → σ → EDealRes × σ) (s : σ) :
    walkNode (some n) .TRAVERSAL_POSTORDER f s =
      if (walkChildren n .TRAVERSAL_POSTORDER f s).1 ≠ .ERROR ∧
          (walkChildren n .TRAVERSAL_POSTORDER f s).1 ≠ .END then
        f n (walkChildren n .TRAVERSAL_POSTORDER f s).2
      else walkChildren n .TRAVERSAL_POSTORDER f s := by
  rw [walkNode]
  simp

theorem walkNode_some_ino {σ : Type} (n : Node)
    (f : Node → σ → EDealRes × σ) (s : σ) :
    walkNode (some n) .TRAVERSAL_INORDER f s =
      walkChildren n .TRAVERSAL_INORDER f s := by
  rw [walkNode]
  simp

theorem exists_lin_walkCells (ord : ETraversalOrder) :
    ∀ (l : List (Option Node)),
      (∀ m ∈ l, ∀ ord', ∃ L, Lin (runWalkNode m ord') L) →
      ∃ L, Lin (runWalkCells l ord) L := by
  intro l
  induction l with
  | nil => intro _; exact ⟨[], lin_skip⟩
  | cons x xs ihl =>
    intro h
    obtain ⟨L1, h1⟩ := h x (by simp) ord
    obtain ⟨L2, h2⟩ := ihl (fun m hm => h m (by simp [hm]))
    exact ⟨L1 ++ L2, lin_dealSeq h1 h2⟩

theorem exists_lin_walkList (ord : ETraversalOrder) (pl : Option SNodeList)
    (h : ∀ l, pl = some l → ∀ m ∈ l, ∀ ord', ∃ L, Lin (runWalkNode m ord') L) :
    ∃ L, Lin (runWalkList pl ord) L := by
  cases pl with
  | none => exact ⟨[], lin_skip⟩
  | some l => exact exists_lin_walkCells ord l (h l rfl)

theorem exists_lin_walkChildren (n : Node) (ord : ETraversalOrder)
    (ih : ∀ (m : Option Node), sizeOf m < sizeOf n → ∀ ord',
      ∃ L, Lin (runWalkNode m ord') L) :
    ∃ L, Lin (runWalkChildren n ord) L := by
  cases n with
  | column a b => exact ⟨[], lin_skip⟩
  | value => exact ⟨[], lin_skip⟩
  | limit => exact ⟨[], lin_skip⟩
  | operator t l r =>
    obtain ⟨L1, h1⟩ := ih l (by simp <;> omega) ord
    obtain ⟨L2, h2⟩ := ih r (by simp <;> omega) ord
    exact ⟨L1 ++ L2, lin_dealSeq h1 h2⟩
  | logicCondition t pl =>
    refine exists_lin_walkList ord pl ?_
    intro l hl m hm ord'
    refine ih m ?_ ord'
    have hsz := List.sizeOf_lt_of_mem hm
    subst hl
    simp
    omega
  | function fn pl =>
    refine exists_lin_walkList ord pl ?_
    intro l hl m hm ord'
    refine ih m ?_ ord'
    have hsz := List.sizeOf_lt_of_mem hm
    subst hl
    simp
    omega
  | realTable a b => exact ⟨[], lin_skip⟩
  | tempTable q => exact ⟨[], lin_skip⟩
  | joinTable t l r oc =>
    obtain ⟨L1, h1⟩ := ih l (by simp <;> omega) ord
    obtain ⟨L2, h2⟩ := ih r (by simp <;> omega) ord
    obtain ⟨L3, h3⟩ := ih oc (by simp <;> omega) ord
    exact ⟨L1 ++ (L2 ++ L3), lin_dealSeq h1 (lin_dealSeq h2 h3)⟩
  | groupingSet pl =>
    refine exists_lin_walkList ord pl ?_
    intro l hl m hm ord'
    refine ih m ?_ ord'
    have hsz := List.sizeOf_lt_of_mem hm
    subst hl
    simp
    omega
  | orderByExpr e o no =>
    obtain ⟨L1, h1⟩ := ih e (by simp <;> omega) ord
    exact ⟨L1, h1⟩
  | stateWindow e c =>
    obtain ⟨L1, h1⟩ := ih e (by simp <;> omega) ord
    obtain ⟨L2, h2⟩ := ih c (by simp <;> omega) ord
    exact ⟨L1 ++ L2, lin_dealSeq h1 h2⟩
  | sessionWindow c g =>
    obtain ⟨L1, h1⟩ := ih c (by simp <;> omega) ord
    obtain ⟨L2, h2⟩ := ih g (by simp <;> omega) ord
    exact ⟨L1 ++ L2, lin_dealSeq h1 h2⟩
  | intervalWindow i o sl fi c =>
    obtain ⟨L1, h1⟩ := ih i (by simp <;> omega) ord
    obtain ⟨L2, h2⟩ := ih o (by simp <;> omega) ord
    obtain ⟨L3, h3⟩ := ih sl (by simp <;> omega) ord
    obtain ⟨L4, h4⟩ := ih fi (by simp <;> omega) ord
    obtain ⟨L5, h5⟩ := ih c (by simp <;> omega) ord
    exact ⟨L1 ++ (L2 ++ (L3 ++ (L4 ++ L5))),
      lin_dealSeq h1 (lin_dealSeq h2 (lin_dealSeq h3 (lin_dealSeq h4 h5)))⟩
  | nodeListHolder pl =>
    refine exists_lin_walkList ord pl ?_
    intro l hl m hm ord'
    refine ih m ?_ ord'
    have hsz := List.sizeOf_lt_of_mem hm
    subst hl
    simp
    omega
  | fill m v =>
    obtain ⟨L1, h1⟩ := ih v (by simp <;> omega) ord
    exact ⟨L1, h1⟩
  | rawExpr i =>
    obtain ⟨L1, h1⟩ := ih i (by simp <;> omega) ord
    exact ⟨L1, h1⟩
  | target e =>
    obtain ⟨L1, h1⟩ := ih e (by simp <;> omega) ord
    exact ⟨L1, h1⟩
  | selectStmt a b c d e f g h i j k l => exact ⟨[], lin_skip⟩
  | setOperator t l r => exact ⟨[], lin_skip⟩
  | showStmt t => exact ⟨[], lin_skip⟩
  | isNullCond e b => exact ⟨[], lin_skip⟩

theorem exists_lin_walkNode_aux :
    ∀ (k : Nat) (m : Option Node), sizeOf m ≤ k → ∀ ord,
      ∃ L, Lin (runWalkNode m ord) L := by
  intro k
  induction k using Nat.strong_induction_on with
  | _ k ihk =>
    intro m hm ord
    cases m with
    | none => exact ⟨[], lin_skip⟩
    | some n =>
      have hsz : sizeOf (some n) = 1 + sizeOf n := by simp
      have ihc : ∀ (m' : Option Node), sizeOf m' < sizeOf n → ∀ ord',
          ∃ L, Lin (runWalkNode m' ord') L := by
        intro m' hm' ord'
        exact ihk (sizeOf m') (by omega) m' le_rfl ord'
      obtain ⟨Lc, hc⟩ := exists_lin_walkChildren n ord ihc
      cases ord with
      | TRAVERSAL_PREORDER =>
        exact ⟨n :: Lc,
          lin_congr (fun σ f s => walkNode_some_pre n f s) (lin_preVisit n hc)⟩
      | TRAVERSAL_INORDER =>
        exact ⟨Lc, lin_congr (fun σ f s => walkNode_some_ino n f s) hc⟩
      | TRAVERSAL_POSTORDER =>
        exact ⟨Lc ++ [n],
          lin_congr (fun σ f s => walkNode_some_post n f s) (lin_postVisit n hc)⟩

theorem exists_lin_walkNode (m : Option Node) (ord : ETraversalOrder) :
    ∃ L, Lin (runWalkNode m ord) L :=
  exists_lin_walkNode_aux (sizeOf m) m le_rfl ord

theorem scan_tick : ∀ L : List Node, scanNodes tick () L = (.CONTINUE, (), L) := by
  intro L
  induction L with
  | nil => rfl
  | cons x xs ih => simp [scanNodes, tick, ih]

/-- Every walk linearizes to its full visit sequence: for any visitor and
context, the instrumented walk equals the linear replay of the visitor along
`fullSeq`. -/
theorem lin_walkNode_full (m : Option Node) (ord : ETraversalOrder) :
    Lin (runWalkNode m ord) (fullSeq ord m) := by
  obtain ⟨L, h⟩ := exists_lin_walkNode m ord
  have hfull : fullSeq ord m = L := by
    have h0 := h Unit tick () []
    unfold fullSeq
    have : walkNode m ord (wlog tick) (((), []) : Unit × List Node) =
        runWalkNode m ord (Unit × List Node) (wlog tick) ((), []) := rfl
    rw [this, h0, scan_tick]
    simp
  rw [hfull]
  exact h

/-- The child-dispatch step also linearizes to its full visit sequence. -/
theorem lin_walkChildren_full (n : Node) (ord : ETraversalOrder) :
    Lin (runWalkChildren n ord) (childSeq ord n) := by
  obtain ⟨L, h⟩ := exists_lin_walkChildren n ord
    (fun m _ ord' => exists_lin_walkNode m ord')
  have hfull : childSeq ord n = L := by
    have h0 := h Unit tick () []
    unfold childSeq
    have : walkChildren n ord (wlog tick) (((), []) : Unit × List Node) =
        runWalkChildren n ord (Unit × List Node) (wlog tick) ((), []) := rfl
    rw [this, h0, scan_tick]
    simp
  rw [hfull]
  exact h

/-- C5 (confirmed): if, during a walk in any order, the visitor continues
through the nodes `l₁` and then returns a non-`CONTINUE` outcome `r` (`ERROR`
or `END`) at the next node `x` of the declared traversal order `fullSeq`, then
the walk invokes the visitor on exactly `l₁ ++ [x]` — no node after `x` in
traversal order is visited — and `r` is the value returned to the top-level
caller, unchanged. -/
theorem walk_short_circuit {σ : Type} (pNode : Option Node)
    (ord : ETraversalOrder) (f : Node → σ → EDealRes × σ) (s s₁ s₂ : σ)
    (l₁ l₂ : List Node) (x : Node) (r : EDealRes)
    (hseq : fullSeq ord pNode = l₁ ++ x :: l₂)
    (hpre : scanNodes f s l₁ = (.CONTINUE, s₁, l₁))
    (hx : f x s₁ = (r, s₂)) (hr : r ≠ .CONTINUE) :
    walkNode pNode ord (wlog f) (s, []) = (r, s₂, l₁ ++ [x]) := by
  have h := lin_walkNode_full pNode ord σ f s []
  rw [hseq, scan_append, hpre] at h
  simp only [scanNodes, hx, hr] at h
  exact h

theorem walk_short_circuit_witness :
    walkNode c5tree .TRAVERSAL_PREORDER (wlog c5visitor) (0, []) =
      (.ERROR, 2,
        [.operator .OP_TYPE_LOWER_THAN (some (.column "a" "x"))
          (some (.column "b" "y")), .column "a" "x", .column "b" "y"]) :=
  walk_short_circuit c5tree .TRAVERSAL_PREORDER c5visitor 0 2 2
    [.operator .OP_TYPE_LOWER_THAN (some (.column "a" "x"))
      (some (.column "b" "y")), .column "a" "x"]
    [] (.column "b" "y") .ERROR rfl rfl rfl (by decide)

/-- C7 (confirmed): in the declared traversal order, a `PRE` walk visits a
node before all nodes of its child-dispatch step, and a `POST` walk visits it
after them: `fullSeq` puts the node at the head (resp. the tail) of its
children's sequence, for every tree, hence each node is seen before (resp.
after) each of its children. -/
theorem walk_pre_post_order (n : Node) :
    fullSeq .TRAVERSAL_PREORDER (some n) =
      n :: childSeq .TRAVERSAL_PREORDER n ∧
    fullSeq .TRAVERSAL_POSTORDER (some n) =
      childSeq .TRAVERSAL_POSTORDER n ++ [n] := by
  constructor
  · unfold fullSeq
    rw [walkNode_some_pre]
    have h : walkChildren n .TRAVERSAL_PREORDER (wlog tick) ((), [n]) =
        (.CONTINUE, (), [n] ++ childSeq .TRAVERSAL_PREORDER n) := by
      have h0 := lin_walkChildren_full n .TRAVERSAL_PREORDER Unit tick () [n]
      rw [scan_tick] at h0
      exact h0
    simp only [wlog, tick, List.nil_append]
    rw [h]
    simp
  · unfold fullSeq
    rw [walkNode_some_post]
    have h : walkChildren n .TRAVERSAL_POSTORDER (wlog tick) ((), []) =
        (.CONTINUE, (), [] ++ childSeq .TRAVERSAL_POSTORDER n) := by
      have h0 := lin_walkChildren_full n .TRAVERSAL_POSTORDER Unit tick () []
      rw [scan_tick] at h0
      exact h0
    rw [h]
    simp [wlog, tick]

/-- C4 (code_bug demonstration): walking or rewriting a `TempTable` never
touches its subquery.  The `QUERY_NODE_TEMP_TABLE` case of both `switch`
statements is a bare `break; // todo`, so the recorded visit sequence of a
`TempTable` holding a column subquery contains only the `TempTable` node
itself, in both orders, and a pre-order rewrite records the same single
visit. -/
theorem tempTable_subquery_not_walked :
    fullSeq .TRAVERSAL_PREORDER (some (.tempTable (some (.column "d" "c")))) =
      [.tempTable (some (.column "d" "c"))] ∧
    fullSeq .TRAVERSAL_POSTORDER (some (.tempTable (some (.column "d" "c")))) =
      [.tempTable (some (.column "d" "c"))] ∧
    rewriteNode 1 (some (.tempTable (some (.column "d" "c"))))
      .TRAVERSAL_PREORDER (wlogRw (fun n s => (.CONTINUE, n, s))) ((), []) =
      some (.CONTINUE, some (.tempTable (some (.column "d" "c"))),
        ((), [.tempTable (some (.column "d" "c"))])) := by
  refine ⟨rfl, rfl, ?_⟩
  simp [rewriteNode, rewriteChildren, wlogRw]

/-- C10 (confirmed): all four entry points silently skip absent input.
Walking a null node returns `CONTINUE` without invoking the visitor (the
recorded log stays empty); rewriting a null slot returns `CONTINUE` with the
slot still empty and the rewriter never invoked; walking or rewriting a null
`SSelectStmt` returns at once without invoking the callback. -/
theorem null_inputs_skipped :
    (∀ (σ : Type) (ord : ETraversalOrder) (f : Node → σ → EDealRes × σ) (s : σ),
      walkNode (none : Option Node) ord (wlog f) (s, []) = (.CONTINUE, s, [])) ∧
    (∀ (σ : Type) (fuel : Nat) (ord : ETraversalOrder)
        (g : Node → σ → EDealRes × Node × σ) (s : σ),
      rewriteNode fuel (none : Option Node) ord (wlogRw g) (s, []) =
        some (.CONTINUE, none, (s, []))) ∧
    (∀ (σ : Type) (c : ESqlClause) (f : Node → σ → EDealRes × σ) (s : σ),
      nodesWalkSelectStmt (none : Option SSelectStmt) c (wlog f) (s, []) =
        (s, [])) ∧
    (∀ (σ : Type) (fuel : Nat) (c : ESqlClause)
        (g : Node → σ → EDealRes × Node × σ) (s : σ),
      nodesRewriteSelectStmt fuel (none : Option SSelectStmt) c (wlogRw g)
        (s, []) = some (none, (s, []))) := by
  refine ⟨?_, ?_, ?_, ?_⟩
  · intro σ ord f s; rfl
  · intro σ fuel ord g s; simp [rewriteNode]
  · intro σ c f s; rfl
  · intro σ fuel c g s; rfl

/-- C6 (confirmed): when a `PRE`-order rewriter replaces the node in a slot
(returning `CONTINUE` with a node `n₁`, equal to or different from `n₀`), the
engine continues by descending into the children of `n₁`, the node left in the
slot: the remainder of the rewrite is exactly `rewriteChildren` of `n₁` and is
independent of `n₀`'s children, so the rewriter is never invoked on any former
child of the displaced node. -/
theorem rewrite_pre_replacement {σ : Type} (fuel : Nat) (n₀ n₁ : Node)
    (f : Node → σ → EDealRes × Node × σ) (s s₁ : σ)
    (hf : f n₀ s = (.CONTINUE, n₁, s₁)) :
    rewriteNode (fuel + 1) (some n₀) .TRAVERSAL_PREORDER f s =
      Option.map (fun mid => (mid.1, some mid.2.1, mid.2.2))
        (rewriteChildren fuel n₁ .TRAVERSAL_PREORDER f s₁) := by
  rw [rewriteNode]
  simp only [hf]
  cases hm : rewriteChildren fuel n₁ .TRAVERSAL_PREORDER f s₁ with
  | none => simp [hm]
  | some mid => simp [hm]

theorem rewrite_pre_replacement_witness :
    rewriteNode (5 + 1)
      (some (.operator .OP_TYPE_GREATER_THAN (some .value) (some .value)))
      .TRAVERSAL_PREORDER c6rewriter 0 =
      Option.map (fun mid => (mid.1, some mid.2.1, mid.2.2))
        (rewriteChildren 5 .value .TRAVERSAL_PREORDER c6rewriter 1) :=
  rewrite_pre_replacement 5
    (.operator .OP_TYPE_GREATER_THAN (some .value) (some .value)) .value
    c6rewriter 0 1 rfl

theorem rewriteSelCaseOrderBy_eq {σ : Type} (fuel : Nat) (p : SSelectStmt)
    (rewriter : Node → σ → EDealRes × Node × σ) (s : σ) :
    rewriteSelCaseOrderBy fuel p rewriter s =
      runRewriteClauses fuel p [.SQL_CLAUSE_PROJECTION] rewriter s := by
  unfold rewriteSelCaseOrderBy runRewriteClauses rewriteClauseStep
  cases h : nodesRewriteExprs fuel p.pProjectionList rewriter s <;>
    simp [runRewriteClauses]

theorem rewriteSelCaseDistinct_eq {σ : Type} (fuel : Nat) (p : SSelectStmt)
    (rewriter : Node → σ → EDealRes × Node × σ) (s : σ) :
    rewriteSelCaseDistinct fuel p rewriter s =
      runRewriteClauses fuel p [.SQL_CLAUSE_ORDER_BY, .SQL_CLAUSE_PROJECTION]
        rewriter s := by
  unfold rewriteSelCaseDistinct
  cases h : nodesRewriteExprs fuel p.pOrderByList rewriter s <;>
    simp [runRewriteClauses, rewriteClauseStep, h, rewriteSelCaseOrderBy_eq]

theorem rewriteSelCaseHaving_eq {σ : Type} (fuel : Nat) (p : SSelectStmt)
    (rewriter : Node → σ → EDealRes × Node × σ) (s : σ) :
    rewriteSelCaseHaving fuel p rewriter s =
      runRewriteClauses fuel p
        [.SQL_CLAUSE_DISTINCT, .SQL_CLAUSE_ORDER_BY, .SQL_CLAUSE_PROJECTION]
        rewriter s := by
  unfold rewriteSelCaseHaving
  simp [runRewriteClauses, rewriteClauseStep, rewriteSelCaseDistinct_eq]

theorem rewriteSelCaseGroupBy_eq {σ : Type} (fuel : Nat) (p : SSelectStmt)
    (rewriter : Node → σ → EDealRes × Node × σ) (s : σ) :
    rewriteSelCaseGroupBy fuel p rewriter s =
      runRewriteClauses fuel p
        [.SQL_CLAUSE_HAVING, .SQL_CLAUSE_DISTINCT, .SQL_CLAUSE_ORDER_BY,
          .SQL_CLAUSE_PROJECTION] rewriter s := by
  unfold rewriteSelCaseGroupBy
  cases h : nodesRewriteExpr fuel p.pHaving rewriter s <;>
    simp [runRewriteClauses, rewriteClauseStep, h, rewriteSelCaseHaving_eq]

theorem rewriteSelCaseWindow_eq {σ : Type} (fuel : Nat) (p : SSelectStmt)
    (rewriter : Node → σ → EDealRes × Node × σ) (s : σ) :
    rewriteSelCaseWindow fuel p rewriter s =
      runRewriteClauses fuel p
        [.SQL_CLAUSE_GROUP_BY, .SQL_CLAUSE_HAVING, .SQL_CLAUSE_DISTINCT,
          .SQL_CLAUSE_ORDER_BY, .SQL_CLAUSE_PROJECTION] rewriter s := by
  unfold rewriteSelCaseWindow
  cases h : nodesRewriteExprs fuel p.pGroupByList rewriter s <;>
    simp [runRewriteClauses, rewriteClauseStep, h, rewriteSelCaseGroupBy_eq]

theorem rewriteSelCasePartitionBy_eq {σ : Type} (fuel : Nat) (p : SSelectStmt)
    (rewriter : Node → σ → EDealRes × Node × σ) (s : σ) :
    rewriteSelCasePartitionBy fuel p rewriter s =
      runRewriteClauses fuel p
        [.SQL_CLAUSE_WINDOW, .SQL_CLAUSE_GROUP_BY, .SQL_CLAUSE_HAVING,
          .SQL_CLAUSE_DISTINCT, .SQL_CLAUSE_ORDER_BY, .SQL_CLAUSE_PROJECTION]
        rewriter s := by
  unfold rewriteSelCasePartitionBy
  cases h : nodesRewriteExpr fuel p.pWindow rewriter s <;>
    simp [runRewriteClauses, rewriteClauseStep, h, rewriteSelCaseWindow_eq]

theorem rewriteSelCaseWhere_eq {σ : Type} (fuel : Nat) (p : SSelectStmt)
    (rewriter : Node → σ → EDealRes × Node × σ) (s : σ) :
    rewriteSelCaseWhere fuel p rewriter s =
      runRewriteClauses fuel p
        [.SQL_CLAUSE_PARTITION_BY, .SQL_CLAUSE_WINDOW, .SQL_CLAUSE_GROUP_BY,
          .SQL_CLAUSE_HAVING, .SQL_CLAUSE_DISTINCT, .SQL_CLAUSE_ORDER_BY,
          .SQL_CLAUSE_PROJECTION] rewriter s := by
  unfold rewriteSelCaseWhere
  cases h : nodesRewriteExprs fuel p.pPartitionByList rewriter s <;>
    simp [runRewriteClauses, rewriteClauseStep, h, rewriteSelCasePartitionBy_eq]

theorem rewriteSelCaseFrom_eq {σ : Type} (fuel : Nat) (p : SSelectStmt)
    (rewriter : Node → σ → EDealRes × Node × σ) (s : σ) :
    rewriteSelCaseFrom fuel p rewriter s =
      runRewriteClauses fuel p sqlClausePipeline rewriter s := by
  unfold rewriteSelCaseFrom
  cases h1 : nodesRewriteExpr fuel p.pFromTable rewriter s with
  | none => simp [sqlClausePipeline, runRewriteClauses, rewriteClauseStep, h1]
  | some r1 =>
    cases h2 : nodesRewriteExpr fuel p.pWhere rewriter r1.2 with
    | none =>
      simp [sqlClausePipeline, runRewriteClauses, rewriteClauseStep, h1, h2]
    | some r2 =>
      simp [sqlClausePipeline, runRewriteClauses, rewriteClauseStep, h1, h2,
        rewriteSelCaseWhere_eq]

/-- C1 (corrected): what the clause-scoped drivers actually process.  Started
at `FROM`, both drivers process the `FROM` clause and every clause after it;
started at any other clause they process exactly the clauses *strictly after*
the starting clause in pipeline order (the starting clause's own content is
skipped).  In particular, starting at `GROUP_BY` processes having, order-by
and projection but not the group-by list. -/
theorem select_driver_amended {σ : Type} (p : SSelectStmt) (c : ESqlClause)
    (walker : Node → σ → EDealRes × σ) (fuel : Nat)
    (rewriter : Node → σ → EDealRes × Node × σ) (s t : σ) :
    nodesWalkSelectStmt (some p) c walker s =
      runWalkClauses p (driverClauses c) walker s ∧
    nodesRewriteSelectStmt fuel (some p) c rewriter t =
      Option.map (fun r => (some r.1, r.2))
        (runRewriteClauses fuel p (driverClauses c) rewriter t) := by
  constructor
  · cases c <;> rfl
  · cases c <;>
      simp only [nodesRewriteSelectStmt, rewriteSelCaseFrom_eq,
        rewriteSelCaseWhere_eq, rewriteSelCasePartitionBy_eq,
        rewriteSelCaseWindow_eq, rewriteSelCaseGroupBy_eq,
        rewriteSelCaseHaving_eq, rewriteSelCaseDistinct_eq,
        rewriteSelCaseOrderBy_eq, driverClauses, clausesStrictlyAfter,
        sqlClausePipeline] <;>
      (try rfl) <;>
      (split <;> rename_i heq <;> simp [heq])

/-- C1 (counterexample): the claim says starting the driver at `GROUP_BY`
visits the group-by list.  It does not: on a statement whose only content is a
nonempty group-by list, the recording walk started at `GROUP_BY` visits no
node at all, while the same walk started one clause earlier (`WINDOW`) does
visit the group-by column. -/
theorem select_driver_counterexample :
    cexSelect.pGroupByList = some [some (.column "t" "c1")] ∧
    nodesWalkSelectStmt (some cexSelect) .SQL_CLAUSE_GROUP_BY (wlog tick)
      ((), []) = ((), []) ∧
    nodesWalkSelectStmt (some cexSelect) .SQL_CLAUSE_WINDOW (wlog tick)
      ((), []) = ((), [.column "t" "c1"]) :=
  ⟨rfl, rfl, rfl⟩

/-- C9 (confirmed): with every allocation succeeding, `createBetweenAnd e a b`
returns an `AND` logic-condition node whose two parameters are, in order, the
operator node `e >= a` and the operator node `e <= b`; `createNotBetweenAnd`
returns an `OR` node over `e < a` and `e > b`, in that order. -/
theorem between_desugaring (pCxt : SAstCreateContext) (e a b : Option Node) :
    createBetweenAnd pCxt [] e a b =
      (pCxt, [],
        some (.logicCondition .LOGIC_COND_TYPE_AND
          (some [some (.operator .OP_TYPE_GREATER_EQUAL e a),
            some (.operator .OP_TYPE_LOWER_EQUAL e b)]))) ∧
    createNotBetweenAnd pCxt [] e a b =
      (pCxt, [],
        some (.logicCondition .LOGIC_COND_TYPE_OR
          (some [some (.operator .OP_TYPE_LOWER_THAN e a),
            some (.operator .OP_TYPE_GREATER_THAN e b)]))) :=
  ⟨rfl, rfl⟩

/-- C8 (confirmed): `createRealTableNode` rejects a table-name token whose
length equals `TSDB_TABLE_NAME_LEN` — it returns a null node and the Build
Context becomes invalid — and accepts one of length `TSDB_TABLE_NAME_LEN - 1`,
returning a real-table node with the context valid. -/
theorem table_name_bound (pCxt pCxt' : SAstCreateContext) (tokMax tokOk : SToken)
    (hmax : tokMax.n = TSDB_TABLE_NAME_LEN)
    (hok : tokOk.n = TSDB_TABLE_NAME_LEN - 1) :
    createRealTableNode pCxt [] none (some tokMax) none = (⟨false⟩, [], none) ∧
    ((createRealTableNode pCxt' [] none (some tokOk) none).1.valid = true ∧
      (createRealTableNode pCxt' [] none (some tokOk) none).2.2 =
        some (.realTable "" tokOk.z)) := by
  refine ⟨?_, ?_, ?_⟩
  · simp [createRealTableNode, checkDbName, checkTableName, hmax,
      TSDB_TABLE_NAME_LEN]
  · simp [createRealTableNode, checkDbName, checkTableName, hok,
      TSDB_TABLE_NAME_LEN, allocStep]
  · simp [createRealTableNode, checkDbName, checkTableName, hok,
      TSDB_TABLE_NAME_LEN, allocStep]

theorem table_name_bound_witness :
    createRealTableNode ⟨true⟩ [] none (some ⟨TSDB_TABLE_NAME_LEN, "t"⟩) none =
      (⟨false⟩, [], none) ∧
    ((createRealTableNode ⟨true⟩ [] none
        (some ⟨TSDB_TABLE_NAME_LEN - 1, "u"⟩) none).1.valid = true ∧
      (createRealTableNode ⟨true⟩ [] none
        (some ⟨TSDB_TABLE_NAME_LEN - 1, "u"⟩) none).2.2 =
        some (.realTable "" "u")) :=
  table_name_bound ⟨true⟩ ⟨true⟩ ⟨TSDB_TABLE_NAME_LEN, "t"⟩
    ⟨TSDB_TABLE_NAME_LEN - 1, "u"⟩ rfl rfl

/-- C2 (amended, proved): a factory call made on an already-invalid Build
Context does not consult the flag.  A call that performs no identifier check
(`createValueNode`) still returns a node when its allocation succeeds, with
the flag left false; a call whose identifier check passes
(`createRealTableNode` with an in-bound table name) overwrites the flag with
the check outcome, resetting it to true. -/
theorem factory_invalid_context_amended (dataType : Nat)
    (pLiteral : Option SToken) (tok : SToken)
    (htok : tok.n < TSDB_TABLE_NAME_LEN) :
    createValueNode ⟨false⟩ [] dataType pLiteral = (⟨false⟩, [], some .value) ∧
    ((createRealTableNode ⟨false⟩ [] none (some tok) none).1.valid = true ∧
      (createRealTableNode ⟨false⟩ [] none (some tok) none).2.2 ≠ none) := by
  refine ⟨rfl, ?_, ?_⟩
  · simp [createRealTableNode, checkDbName, checkTableName, htok, allocStep]
  · simp [createRealTableNode, checkDbName, checkTableName, htok, allocStep]

theorem factory_invalid_context_amended_witness :
    createValueNode ⟨false⟩ [] 0 none = (⟨false⟩, [], some .value) ∧
    ((createRealTableNode ⟨false⟩ [] none (some ⟨1, "t"⟩) none).1.valid = true ∧
      (createRealTableNode ⟨false⟩ [] none (some ⟨1, "t"⟩) none).2.2 ≠ none) :=
  factory_invalid_context_amended 0 none ⟨1, "t"⟩ (by decide)

/-- C2 (counterexample): the claim says every factory call on an invalid
context returns a null node and the flag stays false forever.  Both parts
fail: `createValueNode` on an invalid context returns a (non-null) value node,
and `createRealTableNode` with a one-character table name resets the flag to
true. -/
theorem factory_invalid_context_counterexample :
    (createValueNode ⟨false⟩ [] 0 none).2.2 ≠ none ∧
    (createRealTableNode ⟨false⟩ [] none (some ⟨1, "t"⟩) none).1.valid = true := by
  constructor
  · simp [createValueNode, allocStep]
  · rfl

/-- C3 (amended, proved): the node allocation of
`createLogicConditionNode` is guarded — on failure the call returns no node
and marks the context invalid — but its parameter-list allocation is not:
when the node allocation succeeds and the list allocation fails, the call
returns a LogicCondition node with no parameter list attached (both
parameters are dropped) and the context keeps its previous validity. -/
theorem factory_partial_node_amended (pCxt : SAstCreateContext)
    (t : ELogicConditionType) (p1 p2 : Option Node) :
    createLogicConditionNode pCxt [false] t p1 p2 = (⟨false⟩, [], none) ∧
    createLogicConditionNode pCxt [true, false] t p1 p2 =
      (pCxt, [], some (.logicCondition t none)) :=
  ⟨rfl, rfl⟩

/-- C3 (counterexample): a concrete `createLogicConditionNode` call whose
parameter-list allocation fails returns a non-null node whose parameter list
is absent — its children are not attached — while the context stays valid;
this contradicts the claim that every operation returns either a fully
initialized node or a null node with the context invalidated. -/
theorem factory_partial_node_counterexample :
    (createLogicConditionNode ⟨true⟩ [true, false] .LOGIC_COND_TYPE_AND
      (some .value) (some .limit)).1.valid = true ∧
    (createLogicConditionNode ⟨true⟩ [true, false] .LOGIC_COND_TYPE_AND
      (some .value) (some .limit)).2.2 =
      some (.logicCondition .LOGIC_COND_TYPE_AND none) ∧
    (createLogicConditionNode ⟨true⟩ [true, false] .LOGIC_COND_TYPE_AND
      (some .value) (some .limit)).2.2 ≠
      some (.logicCondition .LOGIC_COND_TYPE_AND
        (some [some .value, some .limit])) := by
  refine ⟨rfl, rfl, ?_⟩
  simp [createLogicConditionNode, allocStep, nodesListAppend]
